import Mathlib

/-!
Verification of the enhanced RAG backend (`backend/rag_config.py`,
`backend/enhanced_rag.py`) against its natural-language specification.

Modelling conventions:
* Python floats are modelled as rationals (`ℚ`); the code only stores,
  compares and averages these values, so no floating-point rounding is
  involved in any verified property.
* Python dict payloads are modelled as association lists over a typed
  dynamic-value type `PVal` covering exactly the value shapes the code
  stores (strings, numbers, booleans, `None`, lists of strings, lists of
  relationship dicts, dependency maps, process-flow lists, temporal-info
  dicts).
* External collaborators (the OpenAI embedding endpoint, the Qdrant
  vector store) are passed in as explicit environment arguments; the
  Qdrant search itself is given a reference in-memory model
  (`qdrantSearch`) implementing its documented contract: payload filter,
  score threshold, descending-score ranking, result limit.
-/

/-- Dynamic payload values, mirroring the JSON-serializable values the
Python code places in Qdrant payloads and filter dictionaries. -/
inductive PVal where
  | pstr (s : String)
  | pnum (q : ℚ)
  | pint (n : Nat)
  | pbool (b : Bool)
  | pnull
  | plistStr (l : List String)
  | plistRel (l : List (String × String × String × ℚ × String))
  | pdeps (m : List (String × List String))
  | pflows (l : List (List String))
  | ptemp (l : List (String × String × Option String × ℚ × String))
  deriving DecidableEq

open PVal

/-- Python truthiness (`bool(v)`) on the modelled values. -/
def PVal.truthy : PVal → Bool
  | pstr s => s ≠ ""
  | pnum q => q ≠ 0
  | pint n => n ≠ 0
  | pbool b => b
  | pnull => false
  | plistStr l => ¬ l.isEmpty
  | plistRel l => ¬ l.isEmpty
  | pdeps m => ¬ m.isEmpty
  | pflows l => ¬ l.isEmpty
  | ptemp l => ¬ l.isEmpty

/-- Coerce a dynamic value to a list of strings (the code only ever does
this where the stored value is a list of strings). -/
def PVal.asStrList : PVal → List String
  | plistStr l => l
  | _ => []

/-- Coerce a dynamic value to a number (the code only ever does this
where the stored value is numeric). -/
def PVal.asNum : PVal → ℚ
  | pnum q => q
  | pint n => n
  | _ => 0

/-- Coerce a dynamic value to a string. -/
def PVal.asStr : PVal → String
  | pstr s => s
  | _ => ""

/-- Python `d.get(k, default)` over an association-list dict. -/
def pget (p : List (String × PVal)) (k : String) (d : PVal) : PVal :=
  match p.lookup k with
  | some v => v
  | none => d

/-- Python `str.strip()`: drop leading and trailing whitespace. -/
def py_strip (s : String) : String :=
  ⟨((s.data.dropWhile Char.isWhitespace).reverse.dropWhile Char.isWhitespace).reverse⟩

/-- Auxiliary scanner for `pyWords`: accumulates the current word
(reversed) while splitting on whitespace runs. -/
def pyWordsAux : List Char → List Char → List String
  | [], acc => if acc.isEmpty then [] else [⟨acc.reverse⟩]
  | c :: cs, acc =>
      if c.isWhitespace then
        if acc.isEmpty then pyWordsAux cs [] else (⟨acc.reverse⟩ : String) :: pyWordsAux cs []
      else
        pyWordsAux cs (c :: acc)

/-- Python `str.split()` with no arguments: split on runs of whitespace,
discarding empty fragments. -/
def pyWords (s : String) : List String :=
  pyWordsAux s.data []

/-! Constants from `ProductionRAGConfig.__init__` (rag_config.py). -/

def embedding_dimensions : Nat := 3072
def chunk_size : Nat := 500
def chunk_overlap : Nat := 50

/-- `ProductionRAGConfig.generate_embedding` (rag_config.py, lines
105-128).  The OpenAI call is the explicit `call` environment; the
function truncates oversized input, and on any exception from the call
it swallows the error and returns a dummy all-zero vector of dimension
`embedding_dimensions`. -/
def generate_embedding (call : String → Except String (List ℚ)) (text : String) : List ℚ :=
  let text := if text.length > 8000 then text.take 8000 else text
  match call text with
  | .ok e => e
  | .error _ => List.replicate embedding_dimensions 0

/-- One chunk dict produced by `ProductionRAGConfig.smart_chunk_text`.
The single-chunk branch of the source emits no `start_word`/`end_word`
keys, hence the `Option`. -/
structure TextChunk where
  text : String
  chunk_id : String
  document_id : String
  title : String
  chunk_index : Nat
  total_chunks : Nat
  word_count : Nat
  start_word : Option Nat
  end_word : Option Nat
  deriving DecidableEq

/-- The `while start_idx < len(words)` loop of `smart_chunk_text`
(rag_config.py, lines 182-211), transcribed clause by clause: emit the
chunk for `words[start_idx:end_idx]`, step `start_idx` to
`end_idx - chunk_overlap`, and stop when the guard
`start_idx >= end_idx - self.chunk_overlap` fires.  (`total_chunks` is
filled in afterwards by the caller, as in the source.) -/
def chunkLoop (words : List String) (documentId title : String)
    (startIdx chunkIndex : Nat) : List TextChunk :=
  if _hlt : startIdx < words.length then
    let endIdx := min (startIdx + chunk_size) words.length
    let chunkWords := (words.drop startIdx).take (endIdx - startIdx)
    let chunkText := String.intercalate " " chunkWords
    let contextPref := if title ≠ "" then "Document: " ++ title ++ "\n\n" else ""
    let c : TextChunk :=
      { text := contextPref ++ chunkText
        chunk_id := documentId ++ "_chunk_" ++ toString chunkIndex
        document_id := documentId
        title := title
        chunk_index := chunkIndex
        total_chunks := 0
        word_count := chunkWords.length
        start_word := some startIdx
        end_word := some endIdx }
    let nextStart := endIdx - chunk_overlap
    if hbrk : nextStart ≥ endIdx - chunk_overlap then
      [c]
    else
      c :: chunkLoop words documentId title nextStart (chunkIndex + 1)
  else
    []
termination_by words.length - startIdx
decreasing_by exact absurd (le_refl _) hbrk

/-- `ProductionRAGConfig.smart_chunk_text` (rag_config.py, lines
157-217): empty-after-strip input yields `[]`; up to `chunk_size` words
yield one chunk; otherwise the overlapping window loop runs and
`total_chunks` is patched onto every produced chunk. -/
def smart_chunk_text (text documentId title : String) : List TextChunk :=
  if py_strip text = "" then []
  else
    let text := py_strip text
    let words := pyWords text
    if words.length ≤ chunk_size then
      [{ text := text
         chunk_id := documentId ++ "_chunk_0"
         document_id := documentId
         title := title
         chunk_index := 0
         total_chunks := 1
         word_count := words.length
         start_word := none
         end_word := none }]
    else
      let chunks := chunkLoop words documentId title 0 0
      chunks.map (fun c => { c with total_chunks := chunks.length })

/-! Data model of `enhanced_rag.py`. -/

/-- The `EnhancedChunk` dataclass (enhanced_rag.py, lines 20-72).
`relationships` entries are the dicts
`(source, target, type, confidence, context)` built in
`process_document_enhanced`; `temporal_info` entries are the dicts
`(type, text, date, confidence, context)`; `dependencies` is the
entity-to-prerequisites dict; `process_flows` is a list of entity
paths.  The `__post_init__` `None`-to-empty defaulting is subsumed by
the fields being total (a constructed chunk always carries a concrete
collection). -/
structure EnhancedChunk where
  content : String
  source_url : String
  document_title : String
  chunk_type : String
  section_title : String
  subsection_title : String := ""
  chunk_index : Nat := 0
  confidence_score : ℚ := 1
  form_numbers : List String := []
  visa_types : List String := []
  requirements : List String := []
  fees : List String := []
  countries : List String := []
  relationships : List (String × String × String × ℚ × String) := []
  dependencies : List (String × List String) := []
  process_flows : List (List String) := []
  temporal_info : List (String × String × Option String × ℚ × String) := []
  is_current : Bool := true
  freshness_score : ℚ := 1
  effective_date : Option String := none
  expiration_date : Option String := none
  deriving DecidableEq

/-- Python `None`-able string field, as stored in the payload. -/
def optStr : Option String → PVal
  | some s => pstr s
  | none => pnull

/-- `dataclasses.asdict` on an `EnhancedChunk`: the payload dict, with
one entry per dataclass field, in declaration order. -/
def asdict (c : EnhancedChunk) : List (String × PVal) :=
  [("content", pstr c.content),
   ("source_url", pstr c.source_url),
   ("document_title", pstr c.document_title),
   ("chunk_type", pstr c.chunk_type),
   ("section_title", pstr c.section_title),
   ("subsection_title", pstr c.subsection_title),
   ("chunk_index", pint c.chunk_index),
   ("confidence_score", pnum c.confidence_score),
   ("form_numbers", plistStr c.form_numbers),
   ("visa_types", plistStr c.visa_types),
   ("requirements", plistStr c.requirements),
   ("fees", plistStr c.fees),
   ("countries", plistStr c.countries),
   ("relationships", plistRel c.relationships),
   ("dependencies", pdeps c.dependencies),
   ("process_flows", pflows c.process_flows),
   ("temporal_info", ptemp c.temporal_info),
   ("is_current", pbool c.is_current),
   ("freshness_score", pnum c.freshness_score),
   ("effective_date", optStr c.effective_date),
   ("expiration_date", optStr c.expiration_date)]

/-- `EnhancedRAGConfig._make_serializable` on a single value
(enhanced_rag.py, lines 325-339): dicts and lists are traversed
recursively; every leaf the code stores is already JSON-serializable
(`json.dumps` succeeds), so each value comes back unchanged. -/
def serializeVal : PVal → PVal
  | pstr s => pstr s
  | pnum q => pnum q
  | pint n => pint n
  | pbool b => pbool b
  | pnull => pnull
  | plistStr l => plistStr l
  | plistRel l => plistRel l
  | pdeps m => pdeps m
  | pflows l => pflows l
  | ptemp l => ptemp l

/-- `EnhancedRAGConfig._make_serializable` on the payload dict: keys are
kept, values are serialized in place. -/
def make_serializable (payload : List (String × PVal)) : List (String × PVal) :=
  payload.map (fun kv => (kv.1, serializeVal kv.2))

/-! Reference model of the external Qdrant vector store. -/

/-- A stored vector-store point: key, vector and payload, as in the
dicts built by `store_enhanced_chunks`. -/
structure Point where
  id : Nat
  vector : List ℚ
  payload : List (String × PVal)
  deriving DecidableEq

/-- A search hit: point key, similarity score and payload. -/
structure ScoredPoint where
  id : Nat
  score : ℚ
  payload : List (String × PVal)
  deriving DecidableEq

/-- One Qdrant filter condition, as produced by
`EnhancedRAGConfig._build_search_filter`: keyword `match any`, exact
`match value`, or numeric `range gte`. -/
inductive QCondition where
  | matchAny (key : String) (vals : List String)
  | matchValue (key : String) (v : PVal)
  | rangeGte (key : String) (bound : ℚ)
  deriving DecidableEq

/-- A Qdrant filter: the conjunction of its `must` conditions. -/
structure QFilter where
  must : List QCondition
  deriving DecidableEq

/-- `EnhancedRAGConfig._build_search_filter` (enhanced_rag.py, lines
281-323): a condition per recognized key (`form_numbers`, `visa_types`,
`chunk_type`, `current_only`, `min_freshness`); any other key in the
filters dict contributes nothing; with no conditions the result is
`None`. -/
def build_search_filter (filters : List (String × PVal)) : Option QFilter :=
  let conditions :=
    (match filters.lookup "form_numbers" with
     | some v => [QCondition.matchAny "form_numbers" v.asStrList]
     | none => []) ++
    (match filters.lookup "visa_types" with
     | some v => [QCondition.matchAny "visa_types" v.asStrList]
     | none => []) ++
    (match filters.lookup "chunk_type" with
     | some v => [QCondition.matchValue "chunk_type" v]
     | none => []) ++
    (match filters.lookup "current_only" with
     | some v => if v.truthy then [QCondition.matchValue "is_current" (pbool true)] else []
     | none => []) ++
    (match filters.lookup "min_freshness" with
     | some v => [QCondition.rangeGte "freshness_score" v.asNum]
     | none => [])
  if conditions.isEmpty then none else some ⟨conditions⟩

/-- Qdrant condition semantics on a stored payload: `match any` holds
when the stored keyword list intersects the given values, `match value`
on exact payload equality, `range gte` on the numeric bound. -/
def evalCondition (payload : List (String × PVal)) : QCondition → Bool
  | .matchAny key vals =>
      match payload.lookup key with
      | some (plistStr l) => vals.any (fun v => l.contains v)
      | _ => false
  | .matchValue key v => payload.lookup key == some v
  | .rangeGte key b =>
      match payload.lookup key with
      | some (pnum q) => decide (b ≤ q)
      | some (pint n) => decide (b ≤ (n : ℚ))
      | _ => false

/-- A point passes an optional Qdrant filter when it satisfies every
`must` condition (no filter passes everything). -/
def matchesFilter (f : Option QFilter) (payload : List (String × PVal)) : Bool :=
  match f with
  | none => true
  | some f => f.must.all (evalCondition payload)

/-- Dot-product similarity used by the vector-store model.  (Qdrant is
configured with cosine distance; the verified properties depend only on
results being ranked by a fixed similarity, which the dot product
provides while staying within `ℚ`.) -/
def dot : List ℚ → List ℚ → ℚ
  | a :: as, b :: bs => a * b + dot as bs
  | _, _ => 0

/-- Insert a hit into a descending-score list, keeping earlier hits
first among equal scores. -/
def insertDesc (x : ScoredPoint) : List ScoredPoint → List ScoredPoint
  | [] => [x]
  | y :: ys => if y.score ≤ x.score then x :: y :: ys else y :: insertDesc x ys

/-- Stable descending sort by score (the ranking the vector store
returns). -/
def sortByScoreDesc (l : List ScoredPoint) : List ScoredPoint :=
  l.foldr insertDesc []

/-- Reference model of `qdrant_client.search` over an in-memory
collection: reject a negative limit, keep the points passing the
filter, score them against the query vector, apply the score threshold,
rank by descending score and truncate to the limit. -/
def qdrantSearch (store : List Point) (qv : List ℚ) (limit : Int)
    (filt : Option QFilter) (threshold : ℚ) : Except String (List ScoredPoint) :=
  if limit < 0 then .error "limit must be a non-negative integer" else
  .ok (((sortByScoreDesc
      (((store.filter (fun p => matchesFilter filt p.payload)).map
          (fun p => ⟨p.id, dot qv p.vector, p.payload⟩)).filter
        (fun sp => decide (threshold ≤ sp.score))))).take limit.toNat)

/-- The type of the vector-store search environment handed to
`semantic_search_enhanced`: query vector, limit, optional filter and
score threshold to either a hit list or a raised error. -/
def SearchEnv : Type :=
  List ℚ → Int → Option QFilter → ℚ → Except String (List ScoredPoint)

/-- A search result as assembled by `semantic_search_enhanced`:
`content`, `score` and the metadata dict literal. -/
structure EnhancedResult where
  content : PVal
  score : ℚ
  metadata : List (String × PVal)
  deriving DecidableEq

/-- The result dict built for one hit in `semantic_search_enhanced`
(enhanced_rag.py, lines 251-272), defaults included. -/
def mkEnhancedResult (r : ScoredPoint) : EnhancedResult :=
  { content := pget r.payload "content" (pstr "")
    score := r.score
    metadata :=
      [("document_title", pget r.payload "document_title" (pstr "")),
       ("source_url", pget r.payload "source_url" (pstr "")),
       ("chunk_type", pget r.payload "chunk_type" (pstr "")),
       ("section_title", pget r.payload "section_title" (pstr "")),
       ("form_numbers", pget r.payload "form_numbers" (plistStr [])),
       ("visa_types", pget r.payload "visa_types" (plistStr [])),
       ("requirements", pget r.payload "requirements" (plistStr [])),
       ("fees", pget r.payload "fees" (plistStr [])),
       ("relationships", pget r.payload "relationships" (plistRel [])),
       ("process_flows", pget r.payload "process_flows" (pflows [])),
       ("temporal_info", pget r.payload "temporal_info" (ptemp [])),
       ("is_current", pget r.payload "is_current" (pbool true)),
       ("freshness_score", pget r.payload "freshness_score" (pnum 1)),
       ("confidence_score", pget r.payload "confidence_score" (pnum 1))] }

/-- `EnhancedRAGConfig.semantic_search_enhanced` (enhanced_rag.py,
lines 228-279): embed the query (the base embedding call never raises),
build the filter when the filters dict is non-empty, search with score
threshold `0.5`, decorate the hits; any exception raised by the
vector-store call is caught and the empty list returned. -/
def semantic_search_enhanced (embedCall : String → Except String (List ℚ))
    (searchEnv : SearchEnv) (query : String) (limit : Int)
    (filters : List (String × PVal)) : List EnhancedResult :=
  let query_embedding := generate_embedding embedCall query
  let search_filter := if filters.isEmpty then none else build_search_filter filters
  match searchEnv query_embedding limit search_filter (1/2) with
  | .ok pts => pts.map mkEnhancedResult
  | .error _ => []

/-! Enrichment pipeline (`process_document_enhanced`) and persistence
(`store_enhanced_chunks`). -/

/-- Modelled from the spec: the Phase 2 components imported by
`enhanced_rag.py` from the modules `smart_chunking`,
`relationship_mapper` and `temporal_tracker` are not among the provided
sources.  Their interfaces (spec sections 4.1-4.3) are abstracted as an
environment record: the chunker output carries content, structural
metadata, a boundary confidence and the per-chunk entity lists (spec
section 3, "Chunk"); relationship extraction yields directed typed
edges with a confidence and context snippet; temporal extraction yields
dated facts and a document-level summary with `is_current`,
`freshness_score` and the typed date lists. -/
structure SmartChunk where
  content : String
  chunk_type : String
  section_title : String
  subsection_title : String
  confidence_score : ℚ
  form_numbers : List String
  visa_types : List String
  requirements : List String
  fees : List String
  countries : List String
  deriving DecidableEq

/-- Modelled from the spec: a `RelationshipMapper` edge
`(source, target, relationship_type, confidence, context)` (spec
section 3, "Relationship"). -/
structure ImmigrationRelationship where
  source : String
  target : String
  relationship_type : String
  confidence : ℚ
  context : String
  deriving DecidableEq

/-- Modelled from the spec: a `TemporalTracker` fact
(spec section 3, "TemporalFact"); `date_mentioned` is the parsed date
(already rendered in ISO form) or `none`. -/
structure TemporalInfo where
  content_type : String
  text_mention : String
  date_mentioned : Option String
  confidence : ℚ
  context : String
  deriving DecidableEq

/-- Modelled from the spec: the `TemporalTracker.get_temporal_summary`
result consumed by the pipeline: `is_current`, `freshness_score` and
the typed date lists (each entry contributing its `date` string). -/
structure TemporalSummary where
  is_current : Bool
  freshness_score : ℚ
  effective_dates : List String
  expiration_dates : List String
  deriving DecidableEq

/-- Modelled from the spec: the environment of Phase 2 component calls
made by `EnhancedRAGConfig` (chunker, relationship mapper, temporal
tracker), abstracted as functions since their modules are not among the
provided sources. -/
structure Phase2Env where
  smart_chunk_document : String → String → String → List SmartChunk
  extract_relationships : String → List String → List String → List ImmigrationRelationship
  extract_temporal_info : String → String → List TemporalInfo
  get_temporal_summary : List TemporalInfo → TemporalSummary
  get_entity_dependencies : String → List String
  get_process_flow : String → Nat → List (List String)

/-- Python dict assignment `d[k] = v` on an association-list dict:
overwrite an existing binding, else append. -/
def updateAssoc (m : List (String × List String)) (k : String) (v : List String) :
    List (String × List String) :=
  if (m.lookup k).isSome then m.map (fun kv => if kv.1 == k then (k, v) else kv)
  else m ++ [(k, v)]

/-- The context truncation applied to temporal-info dicts in
`process_document_enhanced`: `context[:100] + ...` when the context
exceeds 100 characters. -/
def truncCtx (s : String) : String :=
  if s.length > 100 then s.take 100 ++ "..." else s

/-- The per-entity accumulation inside the chunk loop of
`process_document_enhanced` (enhanced_rag.py, lines 129-149): collect
the document relationships touching the entity (case-insensitive
match on source or target), record its dependencies when non-empty and
extend the process flows when non-empty. -/
def entityStep (relationships : List ImmigrationRelationship) (env : Phase2Env)
    (acc : List (String × String × String × ℚ × String) ×
      List (String × List String) × List (List String))
    (entity : String) :
    List (String × String × String × ℚ × String) ×
      List (String × List String) × List (List String) :=
  let entity_rels := relationships.filter
    (fun rel => rel.source.toUpper == entity.toUpper || rel.target.toUpper == entity.toUpper)
  let chunk_relationships := acc.1 ++ entity_rels.map
    (fun rel => (rel.source, rel.target, rel.relationship_type, rel.confidence, rel.context))
  let deps := env.get_entity_dependencies entity
  let chunk_dependencies := if deps.isEmpty then acc.2.1 else updateAssoc acc.2.1 entity deps
  let flows := env.get_process_flow entity 3
  let chunk_flows := if flows.isEmpty then acc.2.2 else acc.2.2 ++ flows
  (chunk_relationships, chunk_dependencies, chunk_flows)

/-- Construction of one `EnhancedChunk` at loop index `i` in
`process_document_enhanced` (enhanced_rag.py, lines 122-180). -/
def mkEnhancedChunk (env : Phase2Env) (title source_url : String)
    (relationships : List ImmigrationRelationship)
    (temporal_info : List TemporalInfo) (tsum : TemporalSummary)
    (i : Nat) (chunk : SmartChunk) : EnhancedChunk :=
  let chunk_entities := chunk.form_numbers ++ chunk.visa_types
  let agg := chunk_entities.foldl (entityStep relationships env) ([], [], [])
  { content := chunk.content
    source_url := source_url
    document_title := title
    chunk_type := chunk.chunk_type
    section_title := chunk.section_title
    subsection_title := chunk.subsection_title
    chunk_index := i
    confidence_score := chunk.confidence_score
    form_numbers := chunk.form_numbers
    visa_types := chunk.visa_types
    requirements := chunk.requirements
    fees := chunk.fees
    countries := chunk.countries
    relationships := agg.1
    dependencies := agg.2.1
    process_flows := agg.2.2
    temporal_info := temporal_info.map (fun info =>
      (info.content_type, info.text_mention, info.date_mentioned,
       info.confidence, truncCtx info.context))
    is_current := tsum.is_current
    freshness_score := tsum.freshness_score
    effective_date := tsum.effective_dates.head?
    expiration_date := tsum.expiration_dates.head? }

/-- The `for i, chunk in enumerate(smart_chunks)` loop: build one
enhanced chunk per smart chunk, indices counting up from `i`. -/
def buildEnhancedChunks (mk : Nat → SmartChunk → EnhancedChunk) :
    Nat → List SmartChunk → List EnhancedChunk
  | _, [] => []
  | i, c :: cs => mk i c :: buildEnhancedChunks mk (i + 1) cs

/-- `EnhancedRAGConfig.process_document_enhanced` (enhanced_rag.py,
lines 91-185): smart-chunk the document, extract relationships from the
full text seeded with all chunk entities, extract temporal facts and
their summary, then decorate each chunk in order. -/
def process_document_enhanced (env : Phase2Env) (title content source_url : String) :
    List EnhancedChunk :=
  let smart_chunks := env.smart_chunk_document title content source_url
  let all_forms := smart_chunks.foldl (fun acc c => acc ++ c.form_numbers) []
  let all_visas := smart_chunks.foldl (fun acc c => acc ++ c.visa_types) []
  let relationships := env.extract_relationships content all_forms all_visas
  let temporal_info := env.extract_temporal_info content title
  let tsum := env.get_temporal_summary temporal_info
  buildEnhancedChunks (mkEnhancedChunk env title source_url relationships temporal_info tsum)
    0 smart_chunks

/-- The point list built in `store_enhanced_chunks` (enhanced_rag.py,
lines 192-213): per batch position `i`, the point id is `i`, the vector
is the (never-raising) embedding of the chunk content and the payload
is the serialized `asdict` of the chunk. -/
def mkPointsFrom (embedCall : String → Except String (List ℚ)) :
    Nat → List EnhancedChunk → List Point
  | _, [] => []
  | i, c :: cs =>
      { id := i
        vector := generate_embedding embedCall c.content
        payload := make_serializable (asdict c) } :: mkPointsFrom embedCall (i + 1) cs

/-- `EnhancedRAGConfig.store_enhanced_chunks` (enhanced_rag.py, lines
187-226).  The whole body sits in one `try`: embeddings are computed
(the base embedding call returns a zero vector rather than raising),
the points are assembled, and a single batch `upsert` is issued.  The
upsert outcome is the `upsertOk` environment flag; on an exception the
function logs and returns `False`.  The returned pair is the success
flag together with the points the call persisted - all of them on
success, none on failure (there is no per-record handling). -/
def store_enhanced_chunks (embedCall : String → Except String (List ℚ))
    (upsertOk : Bool) (chunks : List EnhancedChunk) : Bool × List Point :=
  let points := mkPointsFrom embedCall 0 chunks
  if upsertOk then (true, points) else (false, [])

/-! Entity insights (`get_entity_insights`). -/

/-- Entity classification used to build the insights filter: form
identifiers start with `I-`, `N-` or `DS-` (enhanced_rag.py, line 347). -/
def isFormEntity (entity : String) : Bool :=
  entity.startsWith "I-" || entity.startsWith "N-" || entity.startsWith "DS-"

/-- The `entity_filter` dict of `get_entity_insights` (enhanced_rag.py,
lines 346-353): route the entity to `form_numbers` or `visa_types`, and
fall back to no filter (modelled as the empty dict, equally falsy) when
no value is truthy. -/
def entityFilterFor (entity : String) : List (String × PVal) :=
  let f := [("form_numbers", plistStr (if isFormEntity entity then [entity] else [])),
            ("visa_types", plistStr (if isFormEntity entity then [] else [entity]))]
  if f.any (fun kv => kv.2.truthy) then f else []

/-- Read a string-list field out of a result metadata dict
(`meta.get(key, [])`). -/
def metaStrList (meta : List (String × PVal)) (key : String) : List String :=
  (pget meta key (plistStr [])).asStrList

/-- Read the relationships list out of a result metadata dict. -/
def metaRelList (meta : List (String × PVal)) :
    List (String × String × String × ℚ × String) :=
  match pget meta "relationships" (plistRel []) with
  | plistRel l => l
  | _ => []

/-- Read the process-flow list out of a result metadata dict. -/
def metaFlowList (meta : List (String × PVal)) : List (List String) :=
  match pget meta "process_flows" (pflows []) with
  | pflows l => l
  | _ => []

/-- Read the temporal-info list out of a result metadata dict. -/
def metaTempList (meta : List (String × PVal)) :
    List (String × String × Option String × ℚ × String) :=
  match pget meta "temporal_info" (ptemp []) with
  | ptemp l => l
  | _ => []

/-- Read the freshness score out of a result metadata dict
(`meta.get("freshness_score", 1.0)`). -/
def metaFreshness (meta : List (String × PVal)) : ℚ :=
  (pget meta "freshness_score" (pnum 1)).asNum

/-- The aggregated insights dict of `get_entity_insights`
(enhanced_rag.py, lines 362-374).  Python sets become `Finset`s
(unordered, duplicate-free); the final `list(...)` conversions only
change the container, not the membership. -/
structure Insights where
  entity : String
  total_mentions : Nat
  related_forms : Finset String
  related_visas : Finset String
  requirements : Finset String
  fees : Finset String
  relationships : List (String × String × String × ℚ × String)
  process_flows : List (List String)
  temporal_info : List (String × String × Option String × ℚ × String)
  average_freshness : ℚ
  sources : Finset String
  dependencies : List String
  complete_process_flows : List (List String)

/-- One iteration of the aggregation loop of `get_entity_insights`
(enhanced_rag.py, lines 377-397): set-union the entity lists, extend
the relationship / process-flow / temporal lists, accumulate the
freshness total. -/
def insightsStep (acc : Insights × ℚ) (r : EnhancedResult) : Insights × ℚ :=
  let meta := r.metadata
  let i := acc.1
  ({ i with
      related_forms := i.related_forms ∪ (metaStrList meta "form_numbers").toFinset
      related_visas := i.related_visas ∪ (metaStrList meta "visa_types").toFinset
      requirements := i.requirements ∪ (metaStrList meta "requirements").toFinset
      fees := i.fees ∪ (metaStrList meta "fees").toFinset
      sources := i.sources ∪ {(pget meta "source_url" (pstr "")).asStr}
      relationships := i.relationships ++ metaRelList meta
      process_flows := i.process_flows ++ metaFlowList meta
      temporal_info := i.temporal_info ++ metaTempList meta },
   acc.2 + metaFreshness meta)

/-- `EnhancedRAGConfig.get_entity_insights` (enhanced_rag.py, lines
341-415): search for the entity with the routed filter, fold the hits
into the insights dict, set `average_freshness` to
`total_freshness / len(results)` (`0.0` with no hits) and attach the
relationship-mapper dependencies and flows. -/
def get_entity_insights (embedCall : String → Except String (List ℚ))
    (searchEnv : SearchEnv) (env : Phase2Env) (entity : String) : Insights :=
  let results := semantic_search_enhanced embedCall searchEnv
    ("information about " ++ entity) 10 (entityFilterFor entity)
  let init : Insights :=
    { entity := entity
      total_mentions := results.length
      related_forms := ∅
      related_visas := ∅
      requirements := ∅
      fees := ∅
      relationships := []
      process_flows := []
      temporal_info := []
      average_freshness := 0
      sources := ∅
      dependencies := []
      complete_process_flows := [] }
  let agg := results.foldl insightsStep (init, 0)
  { agg.1 with
      average_freshness := if results.length = 0 then 0 else agg.2 / results.length
      dependencies := env.get_entity_dependencies entity
      complete_process_flows := env.get_process_flow entity 3 }

/-! Concrete inputs used by witnesses and counterexamples. -/

/-- Characters of `n + 1` copies of the word `w` separated by single
spaces (built directly as a character list so that concrete evaluation
stays shallow). -/
def lostChars : Nat → List Char
  | 0 => ['w']
  | n + 1 => 'w' :: ' ' :: lostChars n

/-- A 501-word input text for `smart_chunk_text` (one word more than
`chunk_size`). -/
def lostText : String := ⟨lostChars 500⟩

/-- A healthy embedding environment: the external call succeeds with a
one-dimensional unit vector. -/
def embedOk : String → Except String (List ℚ) := fun _ => .ok [1]

/-- A failing embedding environment: the external call raises. -/
def embedDown : String → Except String (List ℚ) := fun _ => .error "connection error"

/-- A sample enhanced chunk from a first document. -/
def sampleChunkA : EnhancedChunk :=
  { content := "Form I-130 petition overview"
    source_url := "https://example.org/a"
    document_title := "Doc A"
    chunk_type := "narrative"
    section_title := "Overview"
    form_numbers := ["I-130"]
    freshness_score := 9/10 }

/-- A sample enhanced chunk from a second document. -/
def sampleChunkB : EnhancedChunk :=
  { content := "Student visa requirements"
    source_url := "https://example.org/b"
    document_title := "Doc B"
    chunk_type := "narrative"
    section_title := "Requirements"
    visa_types := ["F-1"]
    freshness_score := 4/5 }

/-- A sample Phase 2 environment whose chunker returns one chunk for
any document. -/
def envOne : Phase2Env :=
  { smart_chunk_document := fun _ _ _ =>
      [{ content := "body"
         chunk_type := "narrative"
         section_title := ""
         subsection_title := ""
         confidence_score := 1
         form_numbers := []
         visa_types := []
         requirements := []
         fees := []
         countries := [] }]
    extract_relationships := fun _ _ _ => []
    extract_temporal_info := fun _ _ => []
    get_temporal_summary := fun _ => ⟨true, 1, [], []⟩
    get_entity_dependencies := fun _ => []
    get_process_flow := fun _ _ => [] }

/-- A stored point whose payload is current. -/
def currentPoint : Point :=
  { id := 0
    vector := [1]
    payload := [("content", pstr "current info"), ("is_current", pbool true),
                ("freshness_score", pnum (9/10))] }

/-- A stored point whose payload is stale (`is_current` false). -/
def stalePoint : Point :=
  { id := 1
    vector := [1]
    payload := [("content", pstr "stale info"), ("is_current", pbool false),
                ("freshness_score", pnum (1/10))] }

/-- First point of the tie-break counterexample: same similarity as
`tieHighFresh` but a lower freshness score. -/
def tieLowFresh : Point :=
  { id := 0
    vector := [1]
    payload := [("content", pstr "old guidance"), ("freshness_score", pnum (1/10))] }

/-- Second point of the tie-break counterexample: same similarity as
`tieLowFresh` but a higher freshness score. -/
def tieHighFresh : Point :=
  { id := 1
    vector := [1]
    payload := [("content", pstr "new guidance"), ("freshness_score", pnum (9/10))] }

/-- Placeholder result used only as the `headD` default in witnesses. -/
def emptyResult : EnhancedResult := { content := pnull, score := 0, metadata := [] }

/-- A backend environment for the insights witness: the vector store
returns two fixed hits for any query. -/
def insightsBackend : SearchEnv := fun _ _ _ _ =>
  .ok [⟨0, 1, [("form_numbers", plistStr ["I-485", "I-130"]), ("freshness_score", pnum (1/2))]⟩,
       ⟨1, 1, [("form_numbers", plistStr ["I-130"]), ("freshness_score", pnum 1)]⟩]

/-- The stable payload naming contract of spec section 6, in the order
the spec lists the fields. -/
def payload_contract : List String :=
  ["content", "document_title", "source_url", "chunk_type", "section_title",
   "subsection_title", "chunk_index", "confidence_score", "form_numbers", "visa_types",
   "requirements", "fees", "countries", "relationships", "dependencies", "process_flows",
   "temporal_info", "is_current", "freshness_score", "effective_date", "expiration_date"]

/-! Theorems. -/

lemma char_w_not_ws : ('w'.isWhitespace) = false := by decide

lemma char_sp_ws : (' '.isWhitespace) = true := by decide

lemma str_mk_w : (⟨['w']⟩ : String) = "w" := rfl

lemma lostChars_cons (n : Nat) : ∃ t, lostChars n = 'w' :: t := by
  cases n with
  | zero => exact ⟨[], rfl⟩
  | succ m => exact ⟨' ' :: lostChars m, rfl⟩

lemma lostChars_reverse_cons (n : Nat) : ∃ t, (lostChars n).reverse = 'w' :: t := by
  induction n with
  | zero => exact ⟨[], rfl⟩
  | succ m ih =>
      obtain ⟨t, ht⟩ := ih
      exact ⟨t ++ [' '] ++ ['w'], by simp [lostChars, ht]⟩

lemma py_strip_lostText : py_strip lostText = lostText := by
  obtain ⟨t1, h1⟩ := lostChars_cons 500
  obtain ⟨t2, h2⟩ := lostChars_reverse_cons 500
  have hd : lostText.data = lostChars 500 := rfl
  have e1 : (lostChars 500).dropWhile Char.isWhitespace = lostChars 500 := by
    rw [h1]; simp [List.dropWhile_cons, char_w_not_ws]
  have e2 : (lostChars 500).reverse.dropWhile Char.isWhitespace = (lostChars 500).reverse := by
    rw [h2]; simp [List.dropWhile_cons, char_w_not_ws]
  show String.mk (((lostText.data.dropWhile Char.isWhitespace).reverse.dropWhile
      Char.isWhitespace).reverse) = lostText
  rw [hd, e1, e2, List.reverse_reverse]
  rfl

lemma pyWordsAux_lost (n : Nat) : pyWordsAux (lostChars n) [] = List.replicate (n + 1) "w" := by
  induction n with
  | zero => rfl
  | succ m ih =>
      show pyWordsAux ('w' :: ' ' :: lostChars m) [] = _
      simp only [pyWordsAux, char_w_not_ws, char_sp_ws, Bool.false_eq_true, if_false, if_true,
        List.isEmpty_nil, List.isEmpty_cons, List.reverse_cons, List.reverse_nil,
        List.nil_append, str_mk_w, ih]
      rfl

lemma pyWords_lostText : pyWords lostText = List.replicate 501 "w" := by
  show pyWordsAux lostText.data [] = _
  have hd : lostText.data = lostChars 500 := rfl
  rw [hd, pyWordsAux_lost]

lemma lostText_ne : lostText ≠ "" := by
  obtain ⟨t, ht⟩ := lostChars_cons 500
  intro h
  have hd : lostChars 500 = ([] : List Char) := congrArg String.data h
  rw [ht] at hd
  simp at hd

lemma chunkLoop_single (words : List String) (docId title : String) (startIdx chunkIndex : Nat)
    (h : startIdx < words.length) :
    chunkLoop words docId title startIdx chunkIndex =
      [{ text := (if title ≠ "" then "Document: " ++ title ++ "\n\n" else "") ++
           String.intercalate " "
             ((words.drop startIdx).take (min (startIdx + chunk_size) words.length - startIdx))
         chunk_id := docId ++ "_chunk_" ++ toString chunkIndex
         document_id := docId
         title := title
         chunk_index := chunkIndex
         total_chunks := 0
         word_count :=
           ((words.drop startIdx).take (min (startIdx + chunk_size) words.length - startIdx)).length
         start_word := some startIdx
         end_word := some (min (startIdx + chunk_size) words.length) }] := by
  rw [chunkLoop]
  simp [h]

/-- C1.  The claim states that for non-empty input `smart_chunk_text`
returns chunks whose word spans cover the whole text.  The code is
wrong: after the window step `start_idx = end_idx - chunk_overlap`, the
guard `start_idx >= end_idx - self.chunk_overlap` compares the value
against itself, is always true, and breaks the loop after its first
iteration.  On a 501-word input (one more word than `chunk_size`) the
function returns a single chunk spanning words `[0, 500)`: word 500
belongs to no chunk, so the concatenation of the chunks misses part of
the text. -/
theorem smart_chunk_text_drops_tail :
    (pyWords (py_strip lostText)).length = 501 ∧
    (smart_chunk_text lostText "doc" "").map
      (fun c => (c.chunk_index, c.start_word, c.end_word, c.word_count, c.total_chunks)) =
      [(0, some 0, some 500, 500, 1)] := by
  constructor
  · rw [py_strip_lostText, pyWords_lostText, List.length_replicate]
  · simp only [smart_chunk_text, py_strip_lostText, pyWords_lostText, List.length_replicate]
    rw [if_neg lostText_ne, if_neg (by norm_num [chunk_size])]
    rw [chunkLoop_single _ _ _ _ _ (by rw [List.length_replicate]; norm_num)]
    simp only [List.map_cons, List.map_nil, List.length_cons, List.length_nil,
      List.drop_zero, List.length_take, List.length_replicate, Nat.sub_zero, Nat.zero_add]
    norm_num [chunk_size, Nat.min_def]

lemma mkPointsFrom_length (embedCall : String → Except String (List ℚ)) :
    ∀ (i : Nat) (cs : List EnhancedChunk), (mkPointsFrom embedCall i cs).length = cs.length := by
  intro i cs
  induction cs generalizing i with
  | nil => rfl
  | cons c cs ih => simp [mkPointsFrom, ih]

/-- C2 counterexample.  The claim states that a record failing to
persist does not block persistence of the later records of the same
batch.  The code issues one batch `upsert` inside one `try`: when it
raises, `store_enhanced_chunks` returns `False` and nothing at all is
persisted - the second record of this two-record batch included. -/
theorem store_enhanced_chunks_abort_cex :
    store_enhanced_chunks embedOk false [sampleChunkA, sampleChunkB] = (false, []) := rfl

/-- C2 amended: `store_enhanced_chunks` is all-or-nothing per batch.  A
successful upsert persists one point per record; a failed upsert
persists none and reports `False`; and a failing *embedding* call
aborts nothing because `generate_embedding` swallows the error and
returns a zero vector, so all records are still persisted. -/
theorem store_enhanced_chunks_all_or_nothing
    (embedCall : String → Except String (List ℚ)) (chunks : List EnhancedChunk) :
    (store_enhanced_chunks embedCall true chunks).2.length = chunks.length ∧
    store_enhanced_chunks embedCall false chunks = (false, []) ∧
    (store_enhanced_chunks embedDown true chunks).2.length = chunks.length := by
  refine ⟨?_, rfl, ?_⟩ <;> simp [store_enhanced_chunks, mkPointsFrom_length]

/-- C3 counterexample.  The claim states that a failing embedding call
surfaces as an exception or error return and never as a silent zero
vector.  Evaluating `generate_embedding` with a raising OpenAI call
shows it returns the all-zero 3072-dimensional vector, with no error
in its return type. -/
theorem generate_embedding_zero_vector_cex :
    generate_embedding embedDown "student visa requirements" = List.replicate 3072 0 := rfl

/-- C3 amended: when the external embedding call fails,
`generate_embedding` catches the exception and returns a dummy all-zero
vector of length `embedding_dimensions` (3072); the failure is only
logged, never surfaced to the caller. -/
theorem generate_embedding_zero_on_failure (msg text : String) :
    generate_embedding (fun _ => .error msg) text = List.replicate 3072 0 := rfl

/-- C4 counterexample.  The claim states that a filters dict with an
unknown key, or a negative limit, is rejected immediately with a
descriptive error.  Evaluating the code shows the unknown key
`frobnicate` is silently dropped (`_build_search_filter` returns `None`
as if no filter had been requested, and no error is raised anywhere),
and a negative limit is forwarded to the vector store, whose raised
validation error `semantic_search_enhanced` swallows into `[]`. -/
theorem unknown_filter_key_ignored_cex :
    build_search_filter [("frobnicate", pbool true)] = none ∧
    semantic_search_enhanced embedOk (qdrantSearch [currentPoint])
      "student visa" (-1) [] = [] :=
  ⟨rfl, rfl⟩

/-- C4 amended: an unknown filter key contributes no condition at all -
`_build_search_filter` behaves exactly as if the entry were absent -
and a negative limit is not validated by the function: it reaches the
vector-store call, whose exception is caught and turned into an empty
result list.  Neither contract violation produces a descriptive error
for the caller. -/
theorem filter_unknown_key_dropped (key : String) (v : PVal) (rest : List (String × PVal))
    (h : key ∉ ["form_numbers", "visa_types", "chunk_type", "current_only", "min_freshness"]) :
    build_search_filter ((key, v) :: rest) = build_search_filter rest ∧
    ∀ (embedCall : String → Except String (List ℚ)) (store : List Point)
      (query : String) (filters : List (String × PVal)),
      semantic_search_enhanced embedCall (qdrantSearch store) query (-1) filters = [] := by
  simp only [List.mem_cons, List.mem_singleton, not_or] at h
  obtain ⟨h1, h2, h3, h4, h5, -⟩ := h
  refine ⟨?_, fun embedCall store query filters => rfl⟩
  have b1 : ("form_numbers" == key) = false := beq_eq_false_iff_ne.mpr (Ne.symm h1)
  have b2 : ("visa_types" == key) = false := beq_eq_false_iff_ne.mpr (Ne.symm h2)
  have b3 : ("chunk_type" == key) = false := beq_eq_false_iff_ne.mpr (Ne.symm h3)
  have b4 : ("current_only" == key) = false := beq_eq_false_iff_ne.mpr (Ne.symm h4)
  have b5 : ("min_freshness" == key) = false := beq_eq_false_iff_ne.mpr (Ne.symm h5)
  simp [build_search_filter, List.lookup, b1, b2, b3, b4, b5]

/-- C4 witness: the amended theorem applied to the unknown key
`frobnicate` in front of a recognized `current_only` entry, and to a
concrete negative-limit search. -/
theorem filter_unknown_key_dropped_witness :
    build_search_filter [("frobnicate", pbool true), ("current_only", pbool true)] =
      build_search_filter [("current_only", pbool true)] ∧
    semantic_search_enhanced embedOk (qdrantSearch [currentPoint, stalePoint])
      "student visa" (-1) [] = [] := by
  have h := filter_unknown_key_dropped "frobnicate" (pbool true)
    [("current_only", pbool true)] (by decide)
  exact ⟨h.1, h.2 embedOk [currentPoint, stalePoint] "student visa" []⟩

/-- C10: `semantic_search_enhanced` never propagates an exception.  The
whole body sits in one `try/except` returning `[]` on any raise; the
query embedding itself cannot raise (`generate_embedding` returns a
zero vector on failure, see `generate_embedding_zero_on_failure`), so
the raisable step is the vector-store search, and when it raises - for
any embedding environment, query, limit and filters - the function
returns the empty list. -/
theorem semantic_search_enhanced_never_throws
    (embedCall : String → Except String (List ℚ)) (msg : String)
    (query : String) (limit : Int) (filters : List (String × PVal)) :
    semantic_search_enhanced embedCall (fun _ _ _ _ => .error msg) query limit filters = [] := rfl

lemma mkEnhancedChunk_index (env : Phase2Env) (title url : String)
    (rels : List ImmigrationRelationship) (tinfo : List TemporalInfo)
    (tsum : TemporalSummary) (i : Nat) (c : SmartChunk) :
    (mkEnhancedChunk env title url rels tinfo tsum i c).chunk_index = i := rfl

lemma buildEnhancedChunks_index (env : Phase2Env) (title url : String)
    (rels : List ImmigrationRelationship) (tinfo : List TemporalInfo)
    (tsum : TemporalSummary) :
    ∀ (i : Nat) (cs : List SmartChunk),
      (buildEnhancedChunks (mkEnhancedChunk env title url rels tinfo tsum) i cs).map
        (fun c => c.chunk_index) = List.range' i cs.length := by
  intro i cs
  induction cs generalizing i with
  | nil => rfl
  | cons c cs ih =>
      simp [buildEnhancedChunks, mkEnhancedChunk_index, ih, List.range'_succ]

lemma mkPointsFrom_map_id (embedCall : String → Except String (List ℚ)) :
    ∀ (i : Nat) (cs : List EnhancedChunk),
      (mkPointsFrom embedCall i cs).map (fun p => p.id) = List.range' i cs.length := by
  intro i cs
  induction cs generalizing i with
  | nil => rfl
  | cons c cs ih => simp [mkPointsFrom, ih, List.range'_succ]

/-- C6 counterexample.  The claim states that records of two different
documents are never persisted under the same store key.  Processing and
storing two one-chunk documents (titles `Doc A` and `Doc B`) in separate
batches persists both records under the point id `0`, because
`store_enhanced_chunks` keys each point by its position in the batch
(`"id": i` from `enumerate`), not by any document identity; a Qdrant
upsert with an existing id overwrites the earlier record. -/
theorem cross_document_key_collision_cex :
    ((store_enhanced_chunks embedOk true
        (process_document_enhanced envOne "Doc A" "body" "uA")).2.map (fun p => p.id)) = [0] ∧
    ((store_enhanced_chunks embedOk true
        (process_document_enhanced envOne "Doc B" "body" "uB")).2.map (fun p => p.id)) = [0] ∧
    (process_document_enhanced envOne "Doc A" "body" "uA").map
      (fun c => c.document_title) = ["Doc A"] ∧
    (process_document_enhanced envOne "Doc B" "body" "uB").map
      (fun c => c.document_title) = ["Doc B"] := by
  refine ⟨rfl, rfl, rfl, rfl⟩

/-- C6 amended: within one document, `process_document_enhanced` does
assign each record a `chunk_index` unique in that document (the indices
are exactly `0, ..., n-1` in order); but the persisted store key is the
position of the record in its batch (`mkPointsFrom` assigns ids
`0, ..., k-1`), and the record carries a `document_title`/`source_url`
rather than a `document_id`, so records of different documents stored
in separate batches reuse the same keys (see the counterexample). -/
theorem chunk_index_and_point_id_enumeration (env : Phase2Env)
    (title content url : String) :
    ((process_document_enhanced env title content url).map (fun c => c.chunk_index) =
      List.range (env.smart_chunk_document title content url).length) ∧
    ((process_document_enhanced env title content url).map (fun c => c.chunk_index)).Nodup ∧
    ∀ (embedCall : String → Except String (List ℚ)) (chunks : List EnhancedChunk),
      (mkPointsFrom embedCall 0 chunks).map (fun p => p.id) = List.range chunks.length := by
  have h1 : (process_document_enhanced env title content url).map (fun c => c.chunk_index) =
      List.range (env.smart_chunk_document title content url).length := by
    simp only [process_document_enhanced]
    rw [buildEnhancedChunks_index]
    exact (List.range_eq_range' _).symm
  refine ⟨h1, ?_, ?_⟩
  · rw [h1]; exact List.nodup_range _
  · intro embedCall chunks
    rw [mkPointsFrom_map_id]
    exact (List.range_eq_range' _).symm

lemma make_serializable_keys (p : List (String × PVal)) :
    (make_serializable p).map Prod.fst = p.map Prod.fst := by
  simp [make_serializable, List.map_map]

lemma mem_mkPointsFrom_payload (embedCall : String → Except String (List ℚ)) (p : Point) :
    ∀ (i : Nat) (cs : List EnhancedChunk), p ∈ mkPointsFrom embedCall i cs →
      ∃ c, p.payload = make_serializable (asdict c) := by
  intro i cs
  induction cs generalizing i with
  | nil => intro h; simp [mkPointsFrom] at h
  | cons c cs ih =>
      intro h
      rcases List.mem_cons.mp h with h | h
      · exact ⟨c, by rw [h]⟩
      · exact ih _ h

/-- C9: the payload persisted for every record contains exactly the
fields of the stable naming contract.  `store_enhanced_chunks` persists
`_make_serializable(asdict(chunk))`, whose keys are the 21
`EnhancedChunk` dataclass fields; they are exactly the names the spec
lists (as a duplicate-free set - the spec and the dataclass order the
same names slightly differently). -/
theorem stored_payload_fields_exact (embedCall : String → Except String (List ℚ))
    (upsertOk : Bool) (chunks : List EnhancedChunk) (p : Point)
    (hp : p ∈ (store_enhanced_chunks embedCall upsertOk chunks).2) :
    (p.payload.map Prod.fst).Perm payload_contract ∧ (p.payload.map Prod.fst).Nodup := by
  have hp' : p ∈ mkPointsFrom embedCall 0 chunks := by
    cases upsertOk with
    | false => simp [store_enhanced_chunks] at hp
    | true => exact hp
  obtain ⟨c, hc⟩ := mem_mkPointsFrom_payload embedCall p 0 chunks hp'
  have hk : p.payload.map Prod.fst =
      ["content", "source_url", "document_title", "chunk_type", "section_title",
       "subsection_title", "chunk_index", "confidence_score", "form_numbers", "visa_types",
       "requirements", "fees", "countries", "relationships", "dependencies", "process_flows",
       "temporal_info", "is_current", "freshness_score", "effective_date",
       "expiration_date"] := by
    rw [hc, make_serializable_keys]; rfl
  rw [hk]
  exact ⟨by decide, by decide⟩

/-- C9 witness: the theorem applied to the single point persisted for a
concrete one-chunk batch. -/
theorem stored_payload_fields_exact_witness :
    ((((store_enhanced_chunks embedOk true [sampleChunkA]).2.headD
        ⟨0, [], []⟩).payload.map Prod.fst).Perm payload_contract) ∧
    (((store_enhanced_chunks embedOk true [sampleChunkA]).2.headD
        ⟨0, [], []⟩).payload.map Prod.fst).Nodup :=
  stored_payload_fields_exact embedOk true [sampleChunkA]
    ((store_enhanced_chunks embedOk true [sampleChunkA]).2.headD ⟨0, [], []⟩)
    (List.mem_singleton.mpr rfl)

lemma mem_insertDesc {x y : ScoredPoint} {l : List ScoredPoint} :
    y ∈ insertDesc x l ↔ y = x ∨ y ∈ l := by
  induction l with
  | nil => simp [insertDesc]
  | cons a as ih =>
      by_cases h : a.score ≤ x.score
      · simp [insertDesc, h]
      · simp [insertDesc, h, ih]
        tauto

lemma mem_sortByScoreDesc {y : ScoredPoint} {l : List ScoredPoint} :
    y ∈ sortByScoreDesc l ↔ y ∈ l := by
  induction l with
  | nil => simp [sortByScoreDesc]
  | cons a as ih =>
      show y ∈ insertDesc a (sortByScoreDesc as) ↔ _
      rw [mem_insertDesc]
      simp [ih]

lemma insertDesc_pairwise {x : ScoredPoint} {l : List ScoredPoint}
    (hl : l.Pairwise (fun a b => b.score ≤ a.score)) :
    (insertDesc x l).Pairwise (fun a b => b.score ≤ a.score) := by
  induction l with
  | nil => simp [insertDesc]
  | cons a as ih =>
      rw [List.pairwise_cons] at hl
      obtain ⟨ha, has⟩ := hl
      by_cases h : a.score ≤ x.score
      · rw [insertDesc, if_pos h, List.pairwise_cons]
        refine ⟨?_, List.pairwise_cons.mpr ⟨ha, has⟩⟩
        intro b hb
        rcases List.mem_cons.mp hb with hb | hb
        · rw [hb]; exact h
        · exact le_trans (ha b hb) h
      · rw [insertDesc, if_neg h, List.pairwise_cons]
        refine ⟨?_, ih has⟩
        intro b hb
        rcases mem_insertDesc.mp hb with hb | hb
        · rw [hb]; exact le_of_not_le h
        · exact ha b hb

lemma sortByScoreDesc_pairwise (l : List ScoredPoint) :
    (sortByScoreDesc l).Pairwise (fun a b => b.score ≤ a.score) := by
  induction l with
  | nil => simp [sortByScoreDesc]
  | cons a as ih => exact insertDesc_pairwise ih

/-- C5: a search carrying the currentness filter never returns a stale
record.  With `filters = {current_only: true}` the built filter is the
single condition `is_current == true`; the vector-store model only
scores points whose payload satisfies every `must` condition, and the
returned metadata copies the stored `is_current` value, so each
result's metadata holds `is_current = true`. -/
theorem current_only_filter_sound (embedCall : String → Except String (List ℚ))
    (store : List Point) (query : String) (limit : Int) (r : EnhancedResult)
    (hr : r ∈ semantic_search_enhanced embedCall (qdrantSearch store) query limit
        [("current_only", pbool true)]) :
    r.metadata.lookup "is_current" = some (pbool true) := by
  have hfilter : build_search_filter [("current_only", pbool true)] =
      some ⟨[QCondition.matchValue "is_current" (pbool true)]⟩ := rfl
  simp only [semantic_search_enhanced, List.isEmpty_cons, Bool.false_eq_true, if_false,
    hfilter] at hr
  by_cases hlim : limit < 0
  · rw [qdrantSearch, if_pos hlim] at hr
    simp at hr
  · rw [qdrantSearch, if_neg hlim] at hr
    simp only [List.mem_map] at hr
    obtain ⟨sp, hsp, hre⟩ := hr
    have hsp' := (List.take_sublist _ _).subset hsp
    rw [mem_sortByScoreDesc] at hsp'
    obtain ⟨hspmem, -⟩ := List.mem_filter.mp hsp'
    obtain ⟨p, hpmem, hpe⟩ := List.mem_map.mp hspmem
    obtain ⟨-, hpf⟩ := List.mem_filter.mp hpmem
    have hcond : evalCondition p.payload
        (QCondition.matchValue "is_current" (pbool true)) = true := by
      simpa [matchesFilter] using hpf
    have hlook : p.payload.lookup "is_current" = some (pbool true) := by
      simpa [evalCondition] using hcond
    have hmeta : r.metadata.lookup "is_current" =
        some (pget sp.payload "is_current" (pbool true)) := by
      rw [← hre]; rfl
    rw [hmeta, ← hpe]
    show some (pget p.payload "is_current" (pbool true)) = some (pbool true)
    rw [pget, hlook]

/-- C5 witness: the theorem applied to the first result of a concrete
search over a store holding one current and one stale point. -/
theorem current_only_filter_sound_witness :
    ((semantic_search_enhanced embedOk (qdrantSearch [currentPoint, stalePoint])
        "student visa requirements" 5 [("current_only", pbool true)]).headD emptyResult) ∈
      semantic_search_enhanced embedOk (qdrantSearch [currentPoint, stalePoint])
        "student visa requirements" 5 [("current_only", pbool true)] ∧
    ((semantic_search_enhanced embedOk (qdrantSearch [currentPoint, stalePoint])
        "student visa requirements" 5 [("current_only", pbool true)]).headD
          emptyResult).metadata.lookup "is_current" = some (pbool true) :=
  by
  have hres : semantic_search_enhanced embedOk (qdrantSearch [currentPoint, stalePoint])
      "student visa requirements" 5 [("current_only", pbool true)] =
      [mkEnhancedResult ⟨0, 1, currentPoint.payload⟩] := by with_unfolding_all rfl
  refine ⟨?_, current_only_filter_sound embedOk [currentPoint, stalePoint]
    "student visa requirements" 5 _ ?_⟩ <;>
  · rw [hres]
    exact List.mem_singleton.mpr rfl

/-- C7 counterexample.  The claim states equal-similarity ties are
broken by higher `freshness_score`.  Over a store holding two points of
identical similarity to the query, the first with freshness `1/10` and
the second with freshness `9/10`, the search returns the low-freshness
record first: the code never consults `freshness_score` when ordering,
it returns the vector-store ranking as-is. -/
theorem equal_score_no_freshness_tiebreak_cex :
    (semantic_search_enhanced embedOk (qdrantSearch [tieLowFresh, tieHighFresh])
        "latest guidance" 5 []).map
      (fun r => (r.score, r.metadata.lookup "freshness_score")) =
      [(1, some (pnum (1/10))), (1, some (pnum (9/10)))] := by with_unfolding_all rfl

/-- C7 amended: `semantic_search_enhanced` returns results in the
vector-store ranking: similarity scores are non-increasing along the
result list.  No freshness tie-break is applied (see the
counterexample); equal-score results keep the store's order. -/
theorem search_results_sorted_desc (embedCall : String → Except String (List ℚ))
    (store : List Point) (query : String) (limit : Int)
    (filters : List (String × PVal)) :
    ((semantic_search_enhanced embedCall (qdrantSearch store) query limit filters).map
      (fun r => r.score)).Pairwise (fun a b => b ≤ a) := by
  simp only [semantic_search_enhanced]
  by_cases hlim : limit < 0
  · rw [qdrantSearch, if_pos hlim]
    simp
  · rw [qdrantSearch, if_neg hlim]
    simp only [List.map_map]
    rw [List.pairwise_map]
    exact ((sortByScoreDesc_pairwise _).sublist (List.take_sublist _ _)).imp (fun h => h)

lemma insightsFold_forms (rs : List EnhancedResult) :
    ∀ (acc : Insights × ℚ) (x : String),
      x ∈ (rs.foldl insightsStep acc).1.related_forms ↔
        x ∈ acc.1.related_forms ∨ ∃ r ∈ rs, x ∈ metaStrList r.metadata "form_numbers" := by
  induction rs with
  | nil => intro acc x; simp
  | cons r rs ih =>
      intro acc x
      rw [List.foldl_cons, ih]
      simp [insightsStep, or_assoc]

lemma insightsFold_visas (rs : List EnhancedResult) :
    ∀ (acc : Insights × ℚ) (x : String),
      x ∈ (rs.foldl insightsStep acc).1.related_visas ↔
        x ∈ acc.1.related_visas ∨ ∃ r ∈ rs, x ∈ metaStrList r.metadata "visa_types" := by
  induction rs with
  | nil => intro acc x; simp
  | cons r rs ih =>
      intro acc x
      rw [List.foldl_cons, ih]
      simp [insightsStep, or_assoc]

lemma insightsFold_reqs (rs : List EnhancedResult) :
    ∀ (acc : Insights × ℚ) (x : String),
      x ∈ (rs.foldl insightsStep acc).1.requirements ↔
        x ∈ acc.1.requirements ∨ ∃ r ∈ rs, x ∈ metaStrList r.metadata "requirements" := by
  induction rs with
  | nil => intro acc x; simp
  | cons r rs ih =>
      intro acc x
      rw [List.foldl_cons, ih]
      simp [insightsStep, or_assoc]

lemma insightsFold_fees (rs : List EnhancedResult) :
    ∀ (acc : Insights × ℚ) (x : String),
      x ∈ (rs.foldl insightsStep acc).1.fees ↔
        x ∈ acc.1.fees ∨ ∃ r ∈ rs, x ∈ metaStrList r.metadata "fees" := by
  induction rs with
  | nil => intro acc x; simp
  | cons r rs ih =>
      intro acc x
      rw [List.foldl_cons, ih]
      simp [insightsStep, or_assoc]

lemma insightsFold_rels (rs : List EnhancedResult) :
    ∀ (acc : Insights × ℚ),
      (rs.foldl insightsStep acc).1.relationships =
        acc.1.relationships ++ (rs.map (fun r => metaRelList r.metadata)).flatten := by
  induction rs with
  | nil => intro acc; simp
  | cons r rs ih =>
      intro acc
      rw [List.foldl_cons, ih]
      simp [insightsStep]

lemma insightsFold_flows (rs : List EnhancedResult) :
    ∀ (acc : Insights × ℚ),
      (rs.foldl insightsStep acc).1.process_flows =
        acc.1.process_flows ++ (rs.map (fun r => metaFlowList r.metadata)).flatten := by
  induction rs with
  | nil => intro acc; simp
  | cons r rs ih =>
      intro acc
      rw [List.foldl_cons, ih]
      simp [insightsStep]

lemma insightsFold_fresh (rs : List EnhancedResult) :
    ∀ (acc : Insights × ℚ),
      (rs.foldl insightsStep acc).2 =
        acc.2 + (rs.map (fun r => metaFreshness r.metadata)).sum := by
  induction rs with
  | nil => intro acc; simp
  | cons r rs ih =>
      intro acc
      rw [List.foldl_cons, ih]
      simp [insightsStep, add_assoc]

lemma insightsFold_mentions (rs : List EnhancedResult) :
    ∀ (acc : Insights × ℚ),
      (rs.foldl insightsStep acc).1.total_mentions = acc.1.total_mentions := by
  induction rs with
  | nil => intro acc; rfl
  | cons r rs ih =>
      intro acc
      rw [List.foldl_cons, ih]
      rfl

/-- C8: `get_entity_insights` aggregates over the hits returned by its
entity search exactly as the claim says: the related forms, visa types,
requirements and fees are the duplicate-free unions (as `Finset`s) of
the hits' respective metadata lists; the relationships and process
flows are the concatenations of the hits' lists; `total_mentions` is
the hit count; and for a non-empty hit list `average_freshness` is the
arithmetic mean of the hits' `freshness_score` values (with no hits the
code reports `0.0`).  The vector-store backend is left abstract, so the
statement covers every hit list the store can return. -/
theorem get_entity_insights_aggregation (embedCall : String → Except String (List ℚ))
    (searchEnv : SearchEnv) (env : Phase2Env) (entity : String) :
    (∀ x, x ∈ (get_entity_insights embedCall searchEnv env entity).related_forms ↔
      ∃ r ∈ semantic_search_enhanced embedCall searchEnv ("information about " ++ entity) 10
          (entityFilterFor entity), x ∈ metaStrList r.metadata "form_numbers") ∧
    (∀ x, x ∈ (get_entity_insights embedCall searchEnv env entity).related_visas ↔
      ∃ r ∈ semantic_search_enhanced embedCall searchEnv ("information about " ++ entity) 10
          (entityFilterFor entity), x ∈ metaStrList r.metadata "visa_types") ∧
    (∀ x, x ∈ (get_entity_insights embedCall searchEnv env entity).requirements ↔
      ∃ r ∈ semantic_search_enhanced embedCall searchEnv ("information about " ++ entity) 10
          (entityFilterFor entity), x ∈ metaStrList r.metadata "requirements") ∧
    (∀ x, x ∈ (get_entity_insights embedCall searchEnv env entity).fees ↔
      ∃ r ∈ semantic_search_enhanced embedCall searchEnv ("information about " ++ entity) 10
          (entityFilterFor entity), x ∈ metaStrList r.metadata "fees") ∧
    (get_entity_insights embedCall searchEnv env entity).relationships =
      ((semantic_search_enhanced embedCall searchEnv ("information about " ++ entity) 10
          (entityFilterFor entity)).map (fun r => metaRelList r.metadata)).flatten ∧
    (get_entity_insights embedCall searchEnv env entity).process_flows =
      ((semantic_search_enhanced embedCall searchEnv ("information about " ++ entity) 10
          (entityFilterFor entity)).map (fun r => metaFlowList r.metadata)).flatten ∧
    (get_entity_insights embedCall searchEnv env entity).total_mentions =
      (semantic_search_enhanced embedCall searchEnv ("information about " ++ entity) 10
          (entityFilterFor entity)).length ∧
    (semantic_search_enhanced embedCall searchEnv ("information about " ++ entity) 10
        (entityFilterFor entity) ≠ [] →
      (get_entity_insights embedCall searchEnv env entity).average_freshness =
        ((semantic_search_enhanced embedCall searchEnv ("information about " ++ entity) 10
            (entityFilterFor entity)).map (fun r => metaFreshness r.metadata)).sum /
          ((semantic_search_enhanced embedCall searchEnv ("information about " ++ entity) 10
            (entityFilterFor entity)).length : ℚ)) := by
  simp only [get_entity_insights]
  refine ⟨?_, ?_, ?_, ?_, ?_, ?_, ?_, ?_⟩
  · intro x; rw [insightsFold_forms]; simp
  · intro x; rw [insightsFold_visas]; simp
  · intro x; rw [insightsFold_reqs]; simp
  · intro x; rw [insightsFold_fees]; simp
  · rw [insightsFold_rels]; simp
  · rw [insightsFold_flows]; simp
  · rw [insightsFold_mentions]
  · intro hne
    rw [if_neg (fun h => hne (List.length_eq_zero.mp h)), insightsFold_fresh]
    simp

/-- C8 witness: the aggregation theorem applied to a backend returning
two concrete hits for the entity `I-130`; the form union contains
`I-485` and the average freshness is the mean `(1/2 + 1) / 2 = 3/4`. -/
theorem get_entity_insights_aggregation_witness :
    ("I-485" ∈ (get_entity_insights embedOk insightsBackend envOne "I-130").related_forms) ∧
    (get_entity_insights embedOk insightsBackend envOne "I-130").average_freshness = 3/4 := by
  obtain ⟨hforms, -, -, -, -, -, -, havg⟩ :=
    get_entity_insights_aggregation embedOk insightsBackend envOne "I-130"
  constructor
  · refine (hforms "I-485").mpr
      ⟨(semantic_search_enhanced embedOk insightsBackend "information about I-130" 10
          (entityFilterFor "I-130")).headD emptyResult, ?_, ?_⟩
    · with_unfolding_all decide
    · with_unfolding_all decide
  · rw [havg (by with_unfolding_all decide)]
    with_unfolding_all rfl
